import Mathlib

/-!
Verification development for the Bailu-CLI agent runtime.

The TypeScript sources are shallowly embedded: each definition below
transliterates one function of the source tree (file and symbol named in
its doc comment).  JavaScript strings are modelled as Lean `String`s and
manipulated through their underlying character lists, so that JavaScript
operations such as `includes`, `startsWith`, `split` and `join` have
exact counterparts.  JavaScript numbers are modelled with `Nat`/`Int`
(exact arithmetic; token-estimation decimals 1.5/1.3/0.5 are scaled to
integer tenths).
-/

/-- JavaScript `String.prototype.startsWith`. -/
def jsStartsWith (s pre : String) : Bool :=
  pre.data.isPrefixOf s.data

/-- JavaScript `String.prototype.includes` (substring containment). -/
def jsIncludes (s pat : String) : Bool :=
  decide (pat.data <:+: s.data)

/-- JavaScript `String.prototype.split` with a one-character separator. -/
def jsSplitChar (s : String) (sep : Char) : List String :=
  (s.data.splitOn sep).map String.mk

/-- JavaScript whitespace test (the characters `\s` matches that occur
in this code base's data: space, tab, LF, CR, vertical tab, form
feed). -/
def jsIsSpace (c : Char) : Bool :=
  c = ' ' || c = '\t' || c = '\n' || c = '\r' || c = '\x0b' || c = '\x0c'

/-- JavaScript `String.prototype.trim`. -/
def jsTrim (s : String) : String :=
  String.mk (((s.data.dropWhile jsIsSpace).reverse.dropWhile jsIsSpace).reverse)

/-- JavaScript `String.prototype.toLowerCase`, on the ASCII range the
policy's command names live in. -/
def jsToLower (s : String) : String :=
  String.mk (s.data.map (fun c =>
    if 'A' ≤ c && c ≤ 'Z' then Char.ofNat (c.toNat + 32) else c))

/-- JavaScript `String.prototype.endsWith`. -/
def jsEndsWith (s suf : String) : Bool :=
  suf.data.isSuffixOf s.data

/-- JavaScript `String.prototype.slice(0, length - n)` (drop the last
`n` characters). -/
def jsDropRight (s : String) (n : Nat) : String :=
  String.mk (s.data.take (s.data.length - n))

/-- JavaScript `String.prototype.slice(n)` (drop the first `n`
characters). -/
def jsDropFirst (s : String) (n : Nat) : String :=
  String.mk (s.data.drop n)

/-- Equality of `Except` results is decidable componentwise (needed to
evaluate validator results on concrete inputs). -/
instance {ε α : Type} [DecidableEq ε] [DecidableEq α] :
    DecidableEq (Except ε α) := fun a b =>
  match a, b with
  | .ok x, .ok y =>
    if h : x = y then .isTrue (by rw [h]) else .isFalse (by simp [h])
  | .error x, .error y =>
    if h : x = y then .isTrue (by rw [h]) else .isFalse (by simp [h])
  | .ok _, .error _ => .isFalse (by simp)
  | .error _, .ok _ => .isFalse (by simp)

/-- JavaScript `Array.prototype.join` with a one-character separator. -/
def jsJoinChar (parts : List String) (sep : Char) : String :=
  String.mk (List.intercalate [sep] (parts.map String.data))

/- ----------------------------------------------------------------- -/
/- src/runtime/policy.ts                                             -/
/- ----------------------------------------------------------------- -/

/-- `src/runtime/policy.ts` — `ExecutionMode`. -/
inductive ExecutionMode where
  | dryRun
  | review
  | autoApply
deriving DecidableEq, Repr

/-- `src/runtime/policy.ts` — `SafetyPolicy`. -/
structure SafetyPolicy where
  mode : ExecutionMode
  allowedCommands : Option (List String) := none
  blockedCommands : Option (List String) := none
  maxCommandDurationMs : Option Nat := none

/-- `src/runtime/policy.ts` — the `blockedCommands` list of `getDefaultPolicy`. -/
def defaultBlockedCommands : List String :=
  ["rm", "rm -rf", "rmdir", "del", "format", "mkfs", "dd",
   "shutdown", "reboot", "poweroff", "halt", "init",
   "apt-get", "yum", "dnf", "pacman", "brew", "choco",
   "chmod", "chown", "chgrp", "passwd", "sudo", "su",
   "curl", "wget", "nc", "netcat", "telnet",
   "fdisk", "parted", "mount", "umount",
   "kill", "killall", "pkill"]

/-- `src/runtime/policy.ts` — `getDefaultPolicy` (the mode comes from the
`BAILU_MODE` environment variable, here a parameter). -/
def getDefaultPolicy (mode : ExecutionMode) : SafetyPolicy :=
  { mode := mode
    blockedCommands := some defaultBlockedCommands
    maxCommandDurationMs := some (5 * 60 * 1000) }

/-- `src/runtime/policy.ts` — `containsShellInjection`: tests the
`SHELL_INJECTION_PATTERNS` list (`[;`, backtick`]`, `$(`, `${`, `||`,
`&&`, LF, CR) against the value. -/
def containsShellInjection (value : String) : Bool :=
  value.data.any (fun c => c = ';' || c = '`')
  || jsIncludes value "$("
  || jsIncludes value "$\x7b"
  || jsIncludes value "||"
  || jsIncludes value "&&"
  || value.data.any (fun c => c = '\n')
  || value.data.any (fun c => c = '\r')

/-- `src/runtime/policy.ts` — `extractCommandName`: first
whitespace-separated token, path tail (with `\` treated as `/`), known
extension stripped, lowercased. -/
def extractCommandName (command : String) : String :=
  let trimmed := jsTrim command
  let firstPart := (trimmed.data.splitOnP jsIsSpace).headD []
  let slashed := firstPart.map (fun c => if c = '\\' then '/' else c)
  let baseName := (slashed.splitOn '/').getLastD []
  let lower := jsToLower (String.mk baseName)
  let stripped :=
    if jsEndsWith lower ".exe" || jsEndsWith lower ".bat" || jsEndsWith lower ".cmd"
        || jsEndsWith lower ".ps1" then
      jsDropRight lower 4
    else if jsEndsWith lower ".sh" then
      jsDropRight lower 3
    else lower
  stripped

/-- `src/runtime/policy.ts` — `isCommandAllowed`: deny-list by extracted
base name (plus legacy exact/space-separated match), then, when an
allow-list is present and non-empty, it is authoritative. -/
def isCommandAllowed (policy : SafetyPolicy) (command : String) : Bool :=
  let cmdName := extractCommandName command
  let blockedHit :=
    match policy.blockedCommands with
    | none => false
    | some blocked =>
      blocked.any (fun banned =>
        cmdName = extractCommandName banned
        || command = banned
        || jsStartsWith command (banned ++ " "))
  if blockedHit then false
  else
    match policy.allowedCommands with
    | some allowed =>
      if allowed.length > 0 then
        allowed.any (fun a =>
          cmdName = extractCommandName a
          || command = a
          || jsStartsWith command (a ++ " "))
      else true
    | none => true

/- ----------------------------------------------------------------- -/
/- src/runtime/runner.ts                                             -/
/- ----------------------------------------------------------------- -/

/-- Outcome of the pre-spawn phase of `runCommandSafe`: either one of the
two rejection paths (`Promise.reject` before `spawn`), or the call
reaches the `spawn` invocation with the given command and argument
vector.  The platform shell flag (`shell: process.platform === 'win32'`)
only affects the spawned child, which this phase never reaches on a
rejection. -/
inductive RunnerDecision where
  | rejectedPolicy (message : String)
  | rejectedInjection (message : String)
  | spawn (command : String) (args : List String)
deriving DecidableEq, Repr

/-- `src/runtime/runner.ts` — `runCommandSafe`, up to the point where the
child process is spawned: the policy check on the joined command line,
then the per-value shell-injection checks on the command and on each
argument, in order. -/
def runCommandSafe (policy : SafetyPolicy) (command : String)
    (args : List String) : RunnerDecision :=
  let full := if args.length > 0 then command ++ " " ++ String.intercalate " " args
              else command
  if ¬ isCommandAllowed policy full then
    .rejectedPolicy ("命令被安全策略阻止：" ++ full)
  else if containsShellInjection command then
    .rejectedInjection ("命令包含不安全的 shell 字符：" ++ command)
  else
    match args.find? containsShellInjection with
    | some a => .rejectedInjection ("命令參數包含不安全的 shell 字符：" ++ a)
    | none => .spawn command args

/- ----------------------------------------------------------------- -/
/- src/utils/path-validator.ts                                       -/
/- ----------------------------------------------------------------- -/

/-- One step of Node's `normalizeString` segment processing: empty and
dot segments are dropped; a dot-dot segment pops the previous segment
(unless it is itself a kept dot-dot), is kept when `allowAboveRoot`, and
is otherwise discarded.  The accumulator is in reverse order. -/
def normSegStep (allowAboveRoot : Bool) (acc : List String) (seg : String) :
    List String :=
  if seg = "" || seg = "." then acc
  else if seg = ".." then
    match acc with
    | [] => if allowAboveRoot then [".."] else []
    | top :: rest =>
      if top = ".." then (if allowAboveRoot then ".." :: acc else acc)
      else rest
  else seg :: acc

/-- Node `path.posix` internal `normalizeString`. -/
def normalizeString (s : String) (allowAboveRoot : Bool) : String :=
  jsJoinChar (((jsSplitChar s '/').foldl (normSegStep allowAboveRoot) []).reverse) '/'

/-- Node `path.posix.normalize`. -/
def posixNormalize (p : String) : String :=
  if p = "" then "."
  else
    let isAbs := jsStartsWith p "/"
    let trailingSep := p.data.getLastD ' ' = '/'
    let body := normalizeString p (!isAbs)
    if body = "" then
      if isAbs then "/" else if trailingSep then "./" else "."
    else
      let body := if trailingSep then body ++ "/" else body
      if isAbs then "/" ++ body else body

/-- Node `path.posix.resolve ws p` for an absolute `ws` (the validator
only resolves against the workspace root, which is an absolute
`process.cwd()`). -/
def posixResolve (ws p : String) : String :=
  let body := normalizeString (ws ++ "/" ++ p) false
  if body = "" then "/" else "/" ++ body

/-- Node `path.posix.join` of two parts (empty parts are skipped before
normalization). -/
def posixJoin (a b : String) : String :=
  if a = "" then (if b = "" then "." else posixNormalize b)
  else if b = "" then posixNormalize a
  else posixNormalize (a ++ "/" ++ b)

/-- `src/utils/path-validator.ts` — the `sensitiveDirectories` array of
`validatePath`, built from the environment values `HOME`/`USERPROFILE`
(`homeDir`), `APPDATA` and `LOCALAPPDATA`. -/
def sensitiveDirectories (homeDir appData localAppData : String) : List String :=
  ["/etc", "/sys", "/proc", "/boot", "/root", "/var/log",
   "C:\\Windows\\System32", "C:\\Windows\\SysWOW64", "C:\\Windows\\system",
   "C:\\Program Files", "C:\\Program Files (x86)"]
  ++ (if homeDir ≠ "" then
        [posixJoin homeDir ".ssh",
         posixJoin homeDir ".gnupg",
         posixJoin homeDir ".aws",
         posixJoin homeDir ".azure",
         posixJoin (posixJoin homeDir ".config") "gcloud",
         posixJoin homeDir ".kube",
         posixJoin homeDir ".npmrc",
         posixJoin homeDir ".docker"]
      else [])
  ++ (if appData ≠ "" then [appData] else [])
  ++ (if localAppData ≠ "" then [localAppData] else [])

/-- The `dangerousPatterns` tests of `validatePath`: NUL, the
Windows-reserved metacharacters, and a literal dot-dot substring. -/
def containsDangerousPathPattern (inputPath : String) : Bool :=
  inputPath.data.any (fun c => c = Char.ofNat 0)
  || inputPath.data.any (fun c =>
        c = '<' || c = '>' || c = '"' || c = '|' || c = '?' || c = '*')
  || jsIncludes inputPath ".."

/-- `src/utils/path-validator.ts` — `validatePath`, for the POSIX
platform build of Node's `path` module (so the sensitive-directory
comparison is the case-sensitive branch).  `Except.error` is the
`{ valid: false, error }` result and `Except.ok` the
`{ valid: true, normalizedPath }` result. -/
def validatePath (homeDir appData localAppData : String)
    (inputPath workspaceRoot : String) : Except String String :=
  if inputPath = "" || jsTrim inputPath = "" then
    .error "路径不能为空"
  else if containsDangerousPathPattern inputPath then
    .error "路径包含非法字符或模式"
  else
    let normalizedPath := posixNormalize inputPath
    let absolutePath :=
      if jsStartsWith normalizedPath "/" then normalizedPath
      else posixResolve workspaceRoot normalizedPath
    let normalizedWorkspace := posixNormalize workspaceRoot
    if ¬ jsStartsWith absolutePath normalizedWorkspace then
      .error ("路径必须在工作区内 (" ++ normalizedWorkspace ++ ")")
    else
      match (sensitiveDirectories homeDir appData localAppData).find?
          (fun sensitive => jsStartsWith absolutePath (posixNormalize sensitive)) with
      | some _ => .error "不允许访问系统敏感目录"
      | none => .ok absolutePath

/- ----------------------------------------------------------------- -/
/- src/tools/types.ts, src/tools/registry.ts, src/tools/executor.ts  -/
/- ----------------------------------------------------------------- -/

/-- `src/tools/types.ts` — `ToolParameter` (the semantic type tag is kept
as a string; defaults and descriptions do not influence execution). -/
structure ToolParameter where
  name : String
  type : String
  required : Bool
deriving DecidableEq, Repr

/-- `src/tools/types.ts` — `ToolDefinition`: name, description, `safe`
flag and parameter list. -/
structure ToolDefinition where
  name : String
  description : String
  safe : Bool
  parameters : List ToolParameter
deriving DecidableEq, Repr

/-- `src/tools/types.ts` — `ToolCall`: tool name plus the parameter map
(modelled as an association list of string values; only key presence
matters to the executor). -/
structure ToolCall where
  tool : String
  params : List (String × String)
deriving DecidableEq, Repr

/-- `src/tools/types.ts` — `ToolResult`: `success` with optional
`output`, or failure with `error` (metadata omitted; no claim reads
it through the executor). -/
structure ToolResult where
  success : Bool
  output : Option String := none
  error : Option String := none
deriving DecidableEq, Repr

/-- Modelled from the spec: the Tool Registry (§4.F, `registry.ts` is
not part of the provided sources) is a mapping from unique tool name to
tool; `get(name)` returns the tool or nothing. -/
def registryGet (registry : List ToolDefinition) (name : String) :
    Option ToolDefinition :=
  registry.find? (fun t => t.name = name)

/-- `src/tools/executor.ts` — `ToolExecutor.validateParams`: the first
declared required parameter missing from the call's parameter map
produces an error message. -/
def validateParams (paramDefs : List ToolParameter)
    (params : List (String × String)) : Option String :=
  match paramDefs.find? (fun pd => pd.required && ¬ (params.any (fun kv => kv.1 = pd.name))) with
  | some pd => some ("缺少必需參數: " ++ pd.name)
  | none => none

/-- Observable outcome of one `ToolExecutor.execute` call: the returned
`ToolResult`, whether `requestApproval` was reached (the interactive
prompt), and whether `tool.handler` was invoked. -/
structure ExecOutcome where
  result : ToolResult
  prompted : Bool
  handlerInvoked : Bool
deriving DecidableEq, Repr

namespace ToolExecutor

/-- `src/tools/executor.ts` — `ToolExecutor.execute`.  The registry is
the executor's tool list; `approval` is the user's interactive answer
(the value `requestApproval` resolves with, when reached); and
`handlerResult` gives the value the tool's handler settles with, keyed
by tool name (the handler is external I/O from the executor's point of
view).  The branch order is the source's: registry lookup, parameter
validation, the `review` approval gate, the `dry-run` short-circuit,
then the handler. -/
def execute (registry : List ToolDefinition) (safetyMode : ExecutionMode)
    (approval : Bool) (handlerResult : String → ToolResult)
    (toolCall : ToolCall) : ExecOutcome :=
  match registryGet registry toolCall.tool with
  | none =>
    ⟨⟨false, none, some ("工具 \"" ++ toolCall.tool ++ "\" 不存在")⟩, false, false⟩
  | some tool =>
    match validateParams tool.parameters toolCall.params with
    | some validationError => ⟨⟨false, none, some validationError⟩, false, false⟩
    | none =>
      if safetyMode = .review ∧ ¬ approval then
        ⟨⟨false, none, some "用戶取消了操作"⟩, true, false⟩
      else if safetyMode = .dryRun then
        ⟨⟨true, some "[DRY-RUN] 模擬執行成功", none⟩, false, false⟩
      else
        ⟨handlerResult toolCall.tool, safetyMode = .review, true⟩

end ToolExecutor

/-- `src/tools/implementations/read_file.ts` — `readFileTool.definition`
(`safe: true`, commented in the source as a read-only, auto-approved
operation). -/
def readFileToolDefinition : ToolDefinition :=
  { name := "read_file"
    description := "讀取指定路徑的文件內容"
    safe := true
    parameters :=
      [⟨"path", "string", true⟩, ⟨"encoding", "string", false⟩] }

/- ----------------------------------------------------------------- -/
/- src/tools/implementations/apply_diff.ts                           -/
/- ----------------------------------------------------------------- -/

/-- Numeric value of a digit run, as `parseInt(run, 10)` (ideal
arithmetic). -/
def digitsToNat (ds : List Char) : Nat :=
  ds.foldl (fun n c => n * 10 + (c.toNat - '0'.toNat)) 0

/-- Attempt to match the hunk-header regular expression
`@@ -(\d+),?\d* \+(\d+),?\d* @@` at the head of the character list,
returning the first capture group (the 1-based original start).  The
digit runs are maximal, matching the greedy regex semantics (shorter
splits of the digit runs reach the same continuation positions, so
success and the capture are unambiguous). -/
def matchHunkAt : List Char → Option Nat
  | '@' :: '@' :: ' ' :: '-' :: rest =>
    let d1 := rest.takeWhile Char.isDigit
    if d1.isEmpty then none
    else
      let r1 := rest.dropWhile Char.isDigit
      let r2 := match r1 with
        | ',' :: t => t.dropWhile Char.isDigit
        | _ => r1
      match r2 with
      | ' ' :: '+' :: r3 =>
        let d2 := r3.takeWhile Char.isDigit
        if d2.isEmpty then none
        else
          let r4 := r3.dropWhile Char.isDigit
          let r5 := match r4 with
            | ',' :: t => t.dropWhile Char.isDigit
            | _ => r4
          match r5 with
          | ' ' :: '@' :: '@' :: _ => some (digitsToNat d1)
          | _ => none
      | _ => none
  | _ => none

/-- The unanchored search of `line.match(regex)`: try the pattern at
every start position, left to right. -/
def findHunkHeader : List Char → Option Nat
  | [] => matchHunkAt []
  | c :: rest =>
    match matchHunkAt (c :: rest) with
    | some n => some n
    | none => findHunkHeader rest

/-- State of the `applyUnifiedDiff` loop: the emitted lines so far, the
cursor into the original lines (`originalIndex`), and the `inHunk`
flag. -/
structure DiffLoopState where
  result : List String
  originalIndex : Nat
  inHunk : Bool
deriving Repr

/-- One iteration of the `for (const line of diffLines)` loop of
`applyUnifiedDiff`.  On a matched hunk header the `while` loop emits the
unprocessed original lines before the (0-based) hunk start; a JavaScript
out-of-bounds read yields `undefined`, which `Array.prototype.join`
renders as the empty string, modelled by `getD _ ""`.  The hunk start is
`parseInt(...) - 1` over JavaScript numbers, so it is an `Int` (it is
`-1` when the header digits are `0`). -/
def diffLineStep (originalLines : List String) (st : DiffLoopState)
    (line : String) : DiffLoopState :=
  if jsStartsWith line "@@" then
    match findHunkHeader line.data with
    | some s =>
      let hunkOriginalStart : Int := (s : Int) - 1
      let k := (hunkOriginalStart - (st.originalIndex : Int)).toNat
      { result := st.result
          ++ (List.range k).map (fun j => originalLines.getD (st.originalIndex + j) "")
        originalIndex := st.originalIndex + k
        inHunk := true }
    | none => st
  else if ¬ st.inHunk then st
  else if jsStartsWith line "---" || jsStartsWith line "+++"
      || jsStartsWith line "\\" then st
  else if jsStartsWith line "+" then
    { st with result := st.result ++ [jsDropFirst line 1] }
  else if jsStartsWith line "-" then
    { st with originalIndex := st.originalIndex + 1 }
  else if jsStartsWith line " " then
    { result := st.result ++ [jsDropFirst line 1]
      originalIndex := st.originalIndex + 1
      inHunk := st.inHunk }
  else
    { result := st.result ++ [line]
      originalIndex := st.originalIndex + 1
      inHunk := st.inHunk }

/-- `src/tools/implementations/apply_diff.ts` — `applyUnifiedDiff`.
`Except.error` is the thrown format error; otherwise the diff lines are
folded over the loop state and the remaining original lines are
flushed. -/
def applyUnifiedDiff (original diff : String) : Except String String :=
  if ¬ jsIncludes diff "@@" then
    .error "Invalid diff format: missing hunk markers (@@)"
  else
    let originalLines := jsSplitChar original '\n'
    let diffLines := jsSplitChar diff '\n'
    let final := diffLines.foldl (diffLineStep originalLines) ⟨[], 0, false⟩
    .ok (jsJoinChar (final.result ++ originalLines.drop final.originalIndex) '\n')

/-- `src/tools/implementations/apply_diff.ts` — `applyDiffTool.handler`,
to the extent the backup claim needs it: the filesystem is an abstract
read map `fs`, and the handler's effect is the ordered list of
`fs.writeFile` calls it performs (`mkdir` has no observable effect
here).  Parameters mirror the dynamic checks: `params.path` and
`params.diff` must be present strings, `create_backup` is true unless
literally `false`.  Reads that miss (`fs p = none`) raise `ENOENT`.
The backup is written only when `createBackup && fileExists && original`
— the last conjunct is JavaScript truthiness, so an existing but empty
file skips the backup. -/
def applyDiffHandler (homeDir appData localAppData workspaceRoot : String)
    (fs : String → Option String)
    (pathParam diffParam : Option String) (createBackupParam : Option Bool) :
    ToolResult × List (String × String) :=
  match pathParam with
  | none => (⟨false, none, some "路徑參數無效：必須是非空字符串"⟩, [])
  | some p =>
    if jsTrim p = "" then (⟨false, none, some "路徑參數無效：必須是非空字符串"⟩, [])
    else
      let inputPath := jsTrim p
      match diffParam with
      | none => (⟨false, none, some "Diff 參數無效：必須是非空字符串"⟩, [])
      | some d =>
        if jsTrim d = "" then (⟨false, none, some "Diff 參數無效：必須是非空字符串"⟩, [])
        else
          let diffContent := jsTrim d
          if ¬ jsIncludes diffContent "@@" ∧ ¬ jsStartsWith diffContent "---" then
            (⟨false, none, some "Diff 格式無效：不是有效的 unified diff 格式"⟩, [])
          else
            let createBackup := createBackupParam ≠ some false
            match validatePath homeDir appData localAppData inputPath workspaceRoot with
            | .error e => (⟨false, none, some ("🔒 路徑驗證失敗: " ++ e)⟩, [])
            | .ok filePath =>
              let read := fs filePath
              match read with
              | none =>
                if jsIncludes diffContent "--- /dev/null"
                    || jsIncludes diffContent "--- a/dev/null" then
                  -- new-file creation: original is empty, no backup possible
                  match applyUnifiedDiff "" diffContent with
                  | .error e => (⟨false, none, some ("應用 diff 失敗: " ++ e)⟩, [])
                  | .ok patched =>
                    (⟨true, some ("成功應用補丁到文件: " ++ filePath), none⟩,
                     [(filePath, patched)])
                else
                  (⟨false, none, some ("文件不存在: " ++ filePath)⟩, [])
              | some original =>
                let backupWrites :=
                  if createBackup ∧ original ≠ "" then
                    [(filePath ++ ".backup", original)]
                  else []
                match applyUnifiedDiff original diffContent with
                | .error e => (⟨false, none, some ("應用 diff 失敗: " ++ e)⟩, backupWrites)
                | .ok patched =>
                  (⟨true, some ("成功應用補丁到文件: " ++ filePath), none⟩,
                   backupWrites ++ [(filePath, patched)])

/- ----------------------------------------------------------------- -/
/- src/agent/orchestrator.ts                                         -/
/- ----------------------------------------------------------------- -/

/-- `src/llm/client.ts` — `ChatMessage` (role kept as a string tag). -/
structure ChatMessage where
  role : String
  content : String
deriving DecidableEq, Repr

/-- Membership in the `CHINESE_CHAR_PATTERN` character class
`[一-鿿　-〿＀-￯]`. -/
def isCjkChar (c : Char) : Bool :=
  (0x4e00 ≤ c.toNat && c.toNat ≤ 0x9fff)
  || (0x3000 ≤ c.toNat && c.toNat ≤ 0x303f)
  || (0xff00 ≤ c.toNat && c.toNat ≤ 0xffef)

/-- Membership in the `ENGLISH_WORD_PATTERN` character class `[a-zA-Z]`
(code points 97-122 and 65-90). -/
def isAsciiLetterChar (c : Char) : Bool :=
  (97 ≤ c.toNat && c.toNat ≤ 122) || (65 ≤ c.toNat && c.toNat ≤ 90)

/-- Number of maximal `[a-zA-Z]+` runs after the given characters, the
flag recording whether the previous character was a letter (this is the
number of matches `content.match(ENGLISH_WORD_PATTERN)` returns). -/
def countWordsAux : Bool → List Char → Nat
  | _, [] => 0
  | prevLetter, c :: cs =>
    if isAsciiLetterChar c then
      (if prevLetter then 0 else 1) + countWordsAux true cs
    else countWordsAux false cs

/-- Number of maximal ASCII-letter runs in a character list. -/
def countWords (l : List Char) : Nat := countWordsAux false l

/-- `src/agent/orchestrator.ts` — per-message body of `estimateTokens`,
scaled by 10 to keep the 1.5 / 1.3 / 0.5 weights exact: CJK characters
contribute 15, each letter run 13, and every remaining character 5.
`otherChars` is `content.length - chineseChars - totalLetters`; the
`Math.max(0, ...)` of the source is the truncation already built into
`Nat` subtraction. -/
def messageTokensTenths (content : String) : Nat :=
  let chars := content.data
  let chineseChars := chars.countP (fun c => isCjkChar c)
  let letters := chars.countP (fun c => isAsciiLetterChar c)
  let otherChars := chars.length - chineseChars - letters
  chineseChars * 15 + countWords chars * 13 + otherChars * 5

/-- `src/agent/orchestrator.ts` — `AgentOrchestrator.estimateTokens`:
sum over messages, rounded up (`Math.ceil` of the tenths-scaled sum). -/
def estimateTokens (messages : List ChatMessage) : Nat :=
  ((messages.map (fun m => messageTokensTenths m.content)).sum + 9) / 10

/-- The summary message content
`[對話歷史已自動壓縮，之前共 N 條消息]` inserted by compression. -/
def compressionNotice (compressedCount : Nat) : String :=
  "[對話歷史已自動壓縮，之前共 " ++ toString compressedCount ++ " 條消息]"

/-- `src/agent/orchestrator.ts` — `AgentOrchestrator.autoCompressMessages`
(the in-place array rewrite returned as a value).  The guard is
`currentTokens > effectiveMax * 0.8 && messages.length > 10`, written
here as `10 * tokens > 8 * max` to keep the 80% threshold exact.  On
compression the result is `[messages[0], notice, ...messages.slice(-6)]`
with `compressedCount = length - 6 - 1`. -/
def autoCompressMessages (messages : List ChatMessage) (effectiveMax : Nat) :
    List ChatMessage :=
  if 10 * estimateTokens messages > 8 * effectiveMax ∧ 10 < messages.length then
    match messages with
    | [] => []
    | systemMsg :: _ =>
      let recentMessages := messages.drop (messages.length - 6)
      let compressedCount := messages.length - recentMessages.length - 1
      systemMsg :: ⟨"system", compressionNotice compressedCount⟩ :: recentMessages
  else messages

/-- The consecutive-failure accounting of `AgentOrchestrator.run`:
`consecutiveFailures` and `lastFailedTool`. -/
structure FailureState where
  consecutiveFailures : Nat
  lastFailedTool : String
deriving DecidableEq, Repr

/-- `src/agent/orchestrator.ts` — the per-tool-call update inside the
`for (const toolCall of toolCalls)` loop: a success resets the counter
and clears the remembered tool; a failure increments when the same tool
failed last, and otherwise restarts the count at one. -/
def updateFailureState (st : FailureState) (toolName : String)
    (success : Bool) : FailureState :=
  if success then ⟨0, ""⟩
  else if st.lastFailedTool = toolName then
    ⟨st.consecutiveFailures + 1, st.lastFailedTool⟩
  else ⟨1, toolName⟩

/-- Folding one iteration's whole batch of tool-call results (pairs of
tool name and success flag) through the failure accounting.  Every call
of the batch is executed: the stop check sits after the loop. -/
def processBatch (st : FailureState) (batch : List (String × Bool)) :
    FailureState :=
  batch.foldl (fun s c => updateFailureState s c.1 c.2) st

/-- `src/agent/orchestrator.ts` — the shape of `AgentOrchestrator.run`
relevant to the consecutive-failure stop condition.  Each list element
is the batch of tool-call results of one iteration (the executor runs
each batch in full).  The function returns the number of tool calls
executed and whether the loop stopped through the
`consecutiveFailures >= 3` break, which is evaluated only after a batch
completes. -/
def runLoopFailures : FailureState → List (List (String × Bool)) → Nat × Bool
  | _, [] => (0, false)
  | st, batch :: rest =>
    let st' := processBatch st batch
    if st'.consecutiveFailures ≥ 3 then (batch.length, true)
    else
      let tail := runLoopFailures st' rest
      (batch.length + tail.1, tail.2)

/- ----------------------------------------------------------------- -/
/- src/mcp/client.ts                                                 -/
/- ----------------------------------------------------------------- -/

/-- A pending-request table with JavaScript `Map` semantics restricted
to what `McpClient` uses: unique numeric keys mapping to an opaque
promise token (`resolve`/`reject` pair). -/
abbrev PendingTable := List (Nat × Nat)

/-- `Map.prototype.has`. -/
def mapHas (t : PendingTable) (id : Nat) : Bool :=
  t.any (fun kv => kv.1 = id)

/-- `Map.prototype.get` (keys are unique, the first hit is the value). -/
def mapGet (t : PendingTable) (id : Nat) : Option Nat :=
  (t.find? (fun kv => kv.1 = id)).map (·.2)

/-- `Map.prototype.delete`. -/
def mapDelete (t : PendingTable) (id : Nat) : PendingTable :=
  t.filter (fun kv => ¬ kv.1 = id)

/-- `Map.prototype.set` (overwrites an existing key in place, else
appends). -/
def mapSet (t : PendingTable) (id : Nat) (tok : Nat) : PendingTable :=
  if mapHas t id then t.map (fun kv => if kv.1 = id then (id, tok) else kv)
  else t ++ [(id, tok)]

/-- `src/mcp/client.ts` — the client state the correlation logic
touches: the monotonically increasing `requestId` and the
`pendingRequests` table. -/
structure McpState where
  requestId : Nat
  pendingRequests : PendingTable
deriving DecidableEq, Repr

/-- How `handleResponse` settles a matched promise: `resolve(result)`
when the message has no `error` member, `reject` otherwise. -/
inductive SettleEvent where
  | resolved (token : Nat)
  | rejected (token : Nat)
deriving DecidableEq, Repr

/-- `src/mcp/client.ts` — `McpClient.handleResponse`: a message whose
`id` is absent (or not in the pending table) is ignored; otherwise the
entry is deleted from the table first and its callback settled after
(the returned event).  `msgId = none` is a response without an `id`
member, `isError` whether the message carries an `error` member. -/
def handleResponse (st : McpState) (msgId : Option Nat) (isError : Bool) :
    McpState × Option SettleEvent :=
  match msgId with
  | none => (st, none)
  | some id =>
    if mapHas st.pendingRequests id then
      match mapGet st.pendingRequests id with
      | none => (st, none)
      | some token =>
        ({ st with pendingRequests := mapDelete st.pendingRequests id },
         some (if isError then .rejected token else .resolved token))
    else (st, none)

/-- `src/mcp/client.ts` — `McpClient.sendRequest`, state part: the id is
`++this.requestId` and the pending entry is stored under it (the source
stores the raw pair and immediately overwrites it with the
timeout-clearing wrapper; both `set` calls target the same id, so the
table effect is a single binding). -/
def sendRequest (st : McpState) (token : Nat) : McpState × Nat :=
  let id := st.requestId + 1
  ({ requestId := id
     pendingRequests := mapSet st.pendingRequests id token }, id)

/-- `src/mcp/client.ts` — the timeout path of `sendRequest`: after 30
seconds the entry is deleted and the promise rejected. -/
def timeoutFire (st : McpState) (id : Nat) : McpState :=
  { st with pendingRequests := mapDelete st.pendingRequests id }

/- ----------------------------------------------------------------- -/
/- Helper lemmas                                                     -/
/- ----------------------------------------------------------------- -/

/-- A one-character pattern is an infix of a list exactly when the
character occurs in it. -/
theorem singleton_infix_iff_mem {α : Type} (a : α) (l : List α) :
    [a] <:+: l ↔ a ∈ l := by
  constructor
  · rintro ⟨s, t, rfl⟩
    simp
  · intro h
    obtain ⟨s, t, rfl⟩ := List.append_of_mem h
    exact ⟨s, t, by simp⟩

/-- Splitting on a separator and joining with it are mutually inverse
(JavaScript `parts.join(sep)` after `s.split(sep)`). -/
theorem jsJoin_jsSplit (s : String) (sep : Char) :
    jsJoinChar (jsSplitChar s sep) sep = s := by
  unfold jsJoinChar jsSplitChar
  rw [List.map_map]
  have hmap : ∀ ls : List (List Char), ls.map (String.data ∘ String.mk) = ls := by
    intro ls
    induction ls with
    | nil => rfl
    | cons a t ih => simp only [List.map_cons, ih, Function.comp_apply]
  rw [hmap, List.intercalate_splitOn]

/-- The forbidden-metacharacter set named by the specification: a value
mentions one of the forbidden shell metacharacters when it contains a
semicolon, a backtick, a dollar-parenthesis, a dollar-brace, a double
pipe, a double ampersand, a carriage return or a line feed. -/
def mentionsForbiddenShellMeta (v : String) : Bool :=
  jsIncludes v ";" || jsIncludes v "`" || jsIncludes v "$(" || jsIncludes v "$\x7b"
  || jsIncludes v "||" || jsIncludes v "&&" || jsIncludes v "\r" || jsIncludes v "\n"

/- ----------------------------------------------------------------- -/
/- Claim theorems                                                    -/
/- ----------------------------------------------------------------- -/


/-- A character-equality search over a list succeeds exactly on
membership. -/
theorem any_char_eq_iff_mem (a : Char) (l : List Char) :
    (l.any fun c => c = a) = true ↔ a ∈ l := by
  simp only [List.any_eq_true, decide_eq_true_eq]
  exact ⟨fun ⟨c, hc, e⟩ => e ▸ hc, fun h => ⟨a, h, rfl⟩⟩

/-- A two-character-equality search succeeds exactly when either
character occurs. -/
theorem any_char_pair_iff_mem (a b : Char) (l : List Char) :
    (l.any fun c => c = a || c = b) = true ↔ (a ∈ l ∨ b ∈ l) := by
  simp only [List.any_eq_true, Bool.or_eq_true, decide_eq_true_eq]
  constructor
  · rintro ⟨c, hc, e | e⟩
    · exact Or.inl (e ▸ hc)
    · exact Or.inr (e ▸ hc)
  · rintro (h | h)
    · exact ⟨a, h, Or.inl rfl⟩
    · exact ⟨b, h, Or.inr rfl⟩

/-- C2: for every command string and argument vector in which the
command or any argument contains one of the forbidden shell
metacharacters, the command runner refuses the call before the spawn
point (the pre-spawn decision is never `spawn`, whatever the policy);
and the injection filter fires for exactly the claimed character set —
it is equivalent to containing a semicolon, a backtick, a
dollar-parenthesis, a dollar-brace, a double pipe, a double ampersand,
a carriage return or a line feed. -/
theorem claim2_injection_refused_before_spawn :
    (∀ (policy : SafetyPolicy) (command : String) (args : List String),
      (containsShellInjection command = true
        ∨ ∃ a ∈ args, containsShellInjection a = true) →
      ∀ (c : String) (as : List String),
        runCommandSafe policy command args ≠ .spawn c as)
    ∧ (∀ v : String, containsShellInjection v = mentionsForbiddenShellMeta v) := by
  constructor
  · intro policy command args h c as
    rcases h with hc | ⟨a, hmem, hinj⟩
    · simp only [runCommandSafe, hc]
      split <;> (try split) <;> (try split) <;> simp_all
    · cases hf : args.find? containsShellInjection with
      | none =>
        rw [List.find?_eq_none] at hf
        exact absurd hinj (by simpa using hf a hmem)
      | some x =>
        simp only [runCommandSafe, hf]
        split <;> (try split) <;> (try split) <;> simp_all
  · intro v
    rw [Bool.eq_iff_iff]
    unfold containsShellInjection mentionsForbiddenShellMeta jsIncludes
    simp only [Bool.or_eq_true, decide_eq_true_eq,
      show (";" : String).data = [';'] from rfl,
      show ("`" : String).data = ['`'] from rfl,
      show ("\r" : String).data = ['\r'] from rfl,
      show ("\n" : String).data = ['\n'] from rfl,
      singleton_infix_iff_mem, any_char_eq_iff_mem, any_char_pair_iff_mem]
    tauto

/-- C2 witness: the specification's own scenario — `ls` with the
argument `; rm -rf /` is refused before any spawn. -/
theorem claim2_injection_refused_before_spawn_witness :
    runCommandSafe (getDefaultPolicy .review) "ls" ["; rm -rf /"]
      ≠ .spawn "ls" ["; rm -rf /"] :=
  claim2_injection_refused_before_spawn.1 (getDefaultPolicy .review) "ls"
    ["; rm -rf /"] (Or.inr ⟨"; rm -rf /", by decide, by decide⟩) "ls" ["; rm -rf /"]

/-- C3 (code bug evidence): the claim states that in review mode the
executor prompts exactly when the tool's `safe` flag is false, so
`read_file` (declared `safe: true`, with a source comment promising
automatic approval) must run without prompting.  The code never reads
the `safe` flag: executing a `read_file` call in review mode reaches
`requestApproval`, i.e. the user is prompted. -/
theorem claim3_review_mode_prompts_even_safe_tools :
    readFileToolDefinition.safe = true
    ∧ (ToolExecutor.execute [readFileToolDefinition] .review true
        (fun _ => ⟨true, some "hi", none⟩)
        ⟨"read_file", [("path", "hello.txt")]⟩).prompted = true
    ∧ (ToolExecutor.execute [readFileToolDefinition] .review false
        (fun _ => ⟨true, some "hi", none⟩)
        ⟨"read_file", [("path", "hello.txt")]⟩)
        = ⟨⟨false, none, some "用戶取消了操作"⟩, true, false⟩ := by
  decide

/-- C4: in dry-run mode, a tool call that passes registry lookup and
parameter validation returns the dry-run `Success` result, with no
prompt and without the handler ever being invoked — whatever the
handler would have returned. -/
theorem claim4_dry_run_skips_handler :
    ∀ (registry : List ToolDefinition) (approval : Bool)
      (handlerResult : String → ToolResult) (toolCall : ToolCall)
      (tool : ToolDefinition),
      registryGet registry toolCall.tool = some tool →
      validateParams tool.parameters toolCall.params = none →
      ToolExecutor.execute registry .dryRun approval handlerResult toolCall
        = ⟨⟨true, some "[DRY-RUN] 模擬執行成功", none⟩, false, false⟩ := by
  intro registry approval handlerResult toolCall tool hget hvalid
  simp [ToolExecutor.execute, hget, hvalid]

/-- C4 witness: a dry-run `read_file` call with a valid parameter map is
answered by the dry-run success result even though its handler would
have failed. -/
theorem claim4_dry_run_skips_handler_witness :
    ToolExecutor.execute [readFileToolDefinition] .dryRun true
      (fun _ => ⟨false, none, some "handler must not run"⟩)
      ⟨"read_file", [("path", "hello.txt")]⟩
      = ⟨⟨true, some "[DRY-RUN] 模擬執行成功", none⟩, false, false⟩ :=
  claim4_dry_run_skips_handler [readFileToolDefinition] true
    (fun _ => ⟨false, none, some "handler must not run"⟩)
    ⟨"read_file", [("path", "hello.txt")]⟩ readFileToolDefinition
    (by decide) (by decide)

/-- C5 counterexample: a two-message transcript whose estimated tokens
are far beyond 80% of a context window of 1 is left unchanged by
`autoCompressMessages` — the claimed rewrite (original system message,
then a summary system message, then the last six messages) does not
happen, whatever the summary text, because the code additionally
requires more than 10 messages (and a strictly-greater comparison). -/
theorem claim5_small_transcript_not_compressed :
    8 * 1 ≤ 10 * estimateTokens [⟨"system", "s"⟩, ⟨"user", "hello world"⟩]
    ∧ autoCompressMessages [⟨"system", "s"⟩, ⟨"user", "hello world"⟩] 1
        = [⟨"system", "s"⟩, ⟨"user", "hello world"⟩]
    ∧ ∀ notice : String,
        autoCompressMessages [⟨"system", "s"⟩, ⟨"user", "hello world"⟩] 1
          ≠ ⟨"system", "s"⟩ :: ⟨"system", notice⟩
              :: ([(⟨"system", "s"⟩ : ChatMessage), ⟨"user", "hello world"⟩].drop
                    ([(⟨"system", "s"⟩ : ChatMessage), ⟨"user", "hello world"⟩].length - 6)) := by
  refine ⟨by decide, by decide, fun notice h => ?_⟩
  rw [show autoCompressMessages [⟨"system", "s"⟩, ⟨"user", "hello world"⟩] 1
      = [⟨"system", "s"⟩, ⟨"user", "hello world"⟩] from by decide] at h
  have hl := congrArg List.length h
  simp at hl

/-- C5 (amended): when the estimated token count strictly exceeds 80% of
the context window AND the transcript holds more than 10 messages, the
transcript is rewritten to exactly the original first message, then one
system message summarizing the number of compressed messages
(`length − 7`), then the last 6 messages of the previous transcript;
otherwise it is left unchanged. -/
theorem claim5_auto_compression_shape :
    (∀ (messages : List ChatMessage) (effectiveMax : Nat),
      10 * estimateTokens messages > 8 * effectiveMax →
      10 < messages.length →
      autoCompressMessages messages effectiveMax
        = messages.headD ⟨"", ""⟩
            :: ⟨"system", compressionNotice (messages.length - 7)⟩
            :: messages.drop (messages.length - 6))
    ∧ (∀ (messages : List ChatMessage) (effectiveMax : Nat),
        ¬ (10 * estimateTokens messages > 8 * effectiveMax ∧ 10 < messages.length) →
        autoCompressMessages messages effectiveMax = messages) := by
  constructor
  · intro messages effectiveMax h1 h2
    unfold autoCompressMessages
    rw [if_pos ⟨h1, h2⟩]
    cases messages with
    | nil => simp at h2
    | cons m rest =>
      simp only [List.headD_cons]
      have hlen : ((m :: rest).drop ((m :: rest).length - 6)).length = 6 := by
        rw [List.length_drop]
        simp only [List.length_cons] at h2 ⊢
        omega
      rw [hlen]
      have harg : (m :: rest).length - 6 - 1 = (m :: rest).length - 7 := by omega
      rw [harg]
  · intro messages effectiveMax h
    unfold autoCompressMessages
    rw [if_neg h]

/-- C5 witness: an 11-message transcript over a context window of 1 is
compressed to the system message, the 4-message summary notice, and the
last 6 messages. -/
theorem claim5_auto_compression_shape_witness :
    autoCompressMessages
        [⟨"system", "s0"⟩, ⟨"user", "m1"⟩, ⟨"assistant", "m2"⟩, ⟨"user", "m3"⟩,
         ⟨"assistant", "m4"⟩, ⟨"user", "m5"⟩, ⟨"assistant", "m6"⟩, ⟨"user", "m7"⟩,
         ⟨"assistant", "m8"⟩, ⟨"user", "m9"⟩, ⟨"assistant", "m10"⟩] 1
      = ([⟨"system", "s0"⟩, ⟨"user", "m1"⟩, ⟨"assistant", "m2"⟩, ⟨"user", "m3"⟩,
          ⟨"assistant", "m4"⟩, ⟨"user", "m5"⟩, ⟨"assistant", "m6"⟩, ⟨"user", "m7"⟩,
          ⟨"assistant", "m8"⟩, ⟨"user", "m9"⟩,
          (⟨"assistant", "m10"⟩ : ChatMessage)].headD ⟨"", ""⟩)
          :: ⟨"system", compressionNotice
                ([⟨"system", "s0"⟩, ⟨"user", "m1"⟩, ⟨"assistant", "m2"⟩, ⟨"user", "m3"⟩,
                  ⟨"assistant", "m4"⟩, ⟨"user", "m5"⟩, ⟨"assistant", "m6"⟩, ⟨"user", "m7"⟩,
                  ⟨"assistant", "m8"⟩, ⟨"user", "m9"⟩,
                  (⟨"assistant", "m10"⟩ : ChatMessage)].length - 7)⟩
          :: ([⟨"system", "s0"⟩, ⟨"user", "m1"⟩, ⟨"assistant", "m2"⟩, ⟨"user", "m3"⟩,
               ⟨"assistant", "m4"⟩, ⟨"user", "m5"⟩, ⟨"assistant", "m6"⟩, ⟨"user", "m7"⟩,
               ⟨"assistant", "m8"⟩, ⟨"user", "m9"⟩,
               (⟨"assistant", "m10"⟩ : ChatMessage)].drop
                ([⟨"system", "s0"⟩, ⟨"user", "m1"⟩, ⟨"assistant", "m2"⟩, ⟨"user", "m3"⟩,
                  ⟨"assistant", "m4"⟩, ⟨"user", "m5"⟩, ⟨"assistant", "m6"⟩, ⟨"user", "m7"⟩,
                  ⟨"assistant", "m8"⟩, ⟨"user", "m9"⟩,
                  (⟨"assistant", "m10"⟩ : ChatMessage)].length - 6)) :=
  claim5_auto_compression_shape.1
    [⟨"system", "s0"⟩, ⟨"user", "m1"⟩, ⟨"assistant", "m2"⟩, ⟨"user", "m3"⟩,
     ⟨"assistant", "m4"⟩, ⟨"user", "m5"⟩, ⟨"assistant", "m6"⟩, ⟨"user", "m7"⟩,
     ⟨"assistant", "m8"⟩, ⟨"user", "m9"⟩, ⟨"assistant", "m10"⟩] 1
    (by decide) (by decide)

/-- C6 counterexample: within one iteration's batch, after `read_file`
fails three consecutive times the remaining calls of the batch are still
executed — the fourth call runs, its success resets the counter, and the
loop goes on to a further iteration: five calls execute and the run
never stops with the consecutive-failure error, although a prefix of
three consecutive same-tool failures (state ⟨3, read_file⟩) occurred. -/
theorem claim6_failures_inside_batch_do_not_stop :
    processBatch ⟨0, ""⟩
        [("read_file", false), ("read_file", false), ("read_file", false)]
      = ⟨3, "read_file"⟩
    ∧ runLoopFailures ⟨0, ""⟩
        [[("read_file", false), ("read_file", false), ("read_file", false),
          ("list_directory", true)],
         [("write_file", true)]]
      = (5, false) := by decide

/-- C6 (amended): the consecutive-failure counter resets to zero on any
success, restarts at one on a failure of a different tool, and
increments on a same-tool failure; the orchestrator evaluates the stop
condition only after a whole iteration batch has executed: the loop
terminates after a batch exactly when the carried count is then at least
3, and otherwise continues with all of that batch's calls counted. -/
theorem claim6_consecutive_failure_stop :
    (∀ (st : FailureState) (name : String), updateFailureState st name true = ⟨0, ""⟩)
    ∧ (∀ (st : FailureState) (name : String), st.lastFailedTool = name →
        updateFailureState st name false
          = ⟨st.consecutiveFailures + 1, st.lastFailedTool⟩)
    ∧ (∀ (st : FailureState) (name : String), st.lastFailedTool ≠ name →
        updateFailureState st name false = ⟨1, name⟩)
    ∧ (∀ (st : FailureState) (batch : List (String × Bool))
          (rest : List (List (String × Bool))),
        3 ≤ (processBatch st batch).consecutiveFailures →
        runLoopFailures st (batch :: rest) = (batch.length, true))
    ∧ (∀ (st : FailureState) (batch : List (String × Bool))
          (rest : List (List (String × Bool))),
        (processBatch st batch).consecutiveFailures < 3 →
        runLoopFailures st (batch :: rest)
          = (batch.length + (runLoopFailures (processBatch st batch) rest).1,
             (runLoopFailures (processBatch st batch) rest).2)) := by
  refine ⟨fun st name => rfl, fun st name h => ?_, fun st name h => ?_,
    fun st batch rest h => ?_, fun st batch rest h => ?_⟩
  · simp [updateFailureState, h]
  · simp [updateFailureState, h]
  · conv_lhs => rw [runLoopFailures]
    rw [if_pos h]
  · conv_lhs => rw [runLoopFailures]
    rw [if_neg (by omega)]

/-- C6 witness: three one-call iterations that each fail `read_file`
leave a count of 3, and the loop then stops without executing the
fourth iteration. -/
theorem claim6_consecutive_failure_stop_witness :
    runLoopFailures ⟨2, "read_file"⟩
        ([("read_file", false)] :: [[("read_file", true)]])
      = ([("read_file", false)].length, true) :=
  claim6_consecutive_failure_stop.2.2.2.1 ⟨2, "read_file"⟩
    [("read_file", false)] [[("read_file", true)]] (by decide)

/-- C8 counterexample: an `apply_diff` call with backups enabled on an
existing, readable — but empty — target performs only the final write:
no `.backup` sibling is ever written, because the source guards the
backup write with JavaScript truthiness of the original content. -/
theorem claim8_empty_file_gets_no_backup :
    (applyDiffHandler "" "" "" "/ws"
        (fun p => if p = "/ws/a.txt" then some "" else none)
        (some "a.txt") (some "@@ -1,0 +1,0 @@") none)
      = (⟨true, some "成功應用補丁到文件: /ws/a.txt", none⟩, [("/ws/a.txt", "")])
    ∧ ∀ content : String,
        ("/ws/a.txt.backup", content)
          ∉ (applyDiffHandler "" "" "" "/ws"
              (fun p => if p = "/ws/a.txt" then some "" else none)
              (some "a.txt") (some "@@ -1,0 +1,0 @@") none).2 := by
  refine ⟨by decide, fun content h => ?_⟩
  rw [show (applyDiffHandler "" "" "" "/ws"
      (fun p => if p = "/ws/a.txt" then some "" else none)
      (some "a.txt") (some "@@ -1,0 +1,0 @@") none).2 = [("/ws/a.txt", "")] from by decide] at h
  simp only [List.mem_singleton, Prod.mk.injEq] at h
  exact absurd h.1 (by decide)

/-- C8 (amended): for every `apply_diff` call with `create_backup` not
set to false whose target exists, is readable and has NON-EMPTY
content (and whose parameters pass the handler's checks and whose patch
applies), the handler writes the `.backup` sibling holding the original
content strictly before it writes the patched content to the target. -/
theorem claim8_backup_written_before_patch :
    ∀ (homeDir appData localAppData workspaceRoot : String)
      (fs : String → Option String) (p d : String) (cb : Option Bool)
      (filePath original patched : String),
      jsTrim p ≠ "" →
      jsTrim d ≠ "" →
      (jsIncludes (jsTrim d) "@@" = true ∨ jsStartsWith (jsTrim d) "---" = true) →
      cb ≠ some false →
      validatePath homeDir appData localAppData (jsTrim p) workspaceRoot = .ok filePath →
      fs filePath = some original →
      original ≠ "" →
      applyUnifiedDiff original (jsTrim d) = .ok patched →
      applyDiffHandler homeDir appData localAppData workspaceRoot fs
          (some p) (some d) cb
        = (⟨true, some ("成功應用補丁到文件: " ++ filePath), none⟩,
           [(filePath ++ ".backup", original), (filePath, patched)]) := by
  intro homeDir appData localAppData workspaceRoot fs p d cb filePath original patched
    hp hd hfmt hcb hvp hfs horig hpatch
  have hfmt' : ¬ (¬ jsIncludes (jsTrim d) "@@" = true
      ∧ ¬ jsStartsWith (jsTrim d) "---" = true) := by
    rcases hfmt with h | h <;> simp [h]
  simp only [applyDiffHandler, if_neg hp, if_neg hd, if_neg hfmt', hvp, hfs,
    if_pos (And.intro hcb horig), hpatch]
  rfl

/-- C8 witness: patching an existing non-empty file writes the backup
first and the patched file second. -/
theorem claim8_backup_written_before_patch_witness :
    applyDiffHandler "" "" "" "/ws"
        (fun p => if p = "/ws/a.txt" then some "old" else none)
        (some "a.txt") (some "@@ -1,0 +1,0 @@") none
      = (⟨true, some ("成功應用補丁到文件: " ++ "/ws/a.txt"), none⟩,
         [("/ws/a.txt" ++ ".backup", "old"), ("/ws/a.txt", "old")]) :=
  claim8_backup_written_before_patch "" "" "" "/ws"
    (fun p => if p = "/ws/a.txt" then some "old" else none)
    "a.txt" "@@ -1,0 +1,0 @@" none "/ws/a.txt" "old" "old"
    (by decide) (by decide) (Or.inl (by decide)) (by decide) (by decide)
    (by simp) (by decide) (by decide)

/-- A successful pending-table lookup implies table membership. -/
theorem mapGet_some_mapHas (t : PendingTable) (id tok : Nat)
    (h : mapGet t id = some tok) : mapHas t id = true := by
  unfold mapGet at h
  unfold mapHas
  cases hf : t.find? (fun kv => kv.1 = id) with
  | none => rw [hf] at h; cases h
  | some kv =>
    have hmem := List.mem_of_find?_eq_some hf
    rw [List.any_eq_true]
    have hp := List.find?_some hf
    exact ⟨kv, hmem, hp⟩

/-- Deleting a key removes it from the pending table. -/
theorem mapHas_mapDelete (t : PendingTable) (id : Nat) :
    mapHas (mapDelete t id) id = false := by
  unfold mapHas mapDelete
  rw [Bool.eq_false_iff]
  intro hany
  rw [List.any_eq_true] at hany
  obtain ⟨kv, hmem, hp⟩ := hany
  rw [List.mem_filter] at hmem
  simp at hmem hp
  exact absurd hp hmem.2

/-- C10: the MCP client settles each request at most once.  A response
without an id, or whose id is absent from the pending table (unknown,
duplicate, or already timed out), leaves the state unchanged and
settles nothing; a response whose id matches removes the entry from the
table before its callback fires (the settled event), so that
re-handling the same message afterwards settles nothing. -/
theorem claim10_mcp_settles_at_most_once :
    (∀ (st : McpState) (e : Bool), handleResponse st none e = (st, none))
    ∧ (∀ (st : McpState) (id : Nat) (e : Bool),
        mapHas st.pendingRequests id = false →
        handleResponse st (some id) e = (st, none))
    ∧ (∀ (st : McpState) (id : Nat) (e : Bool) (token : Nat),
        mapGet st.pendingRequests id = some token →
        handleResponse st (some id) e
          = ({ st with pendingRequests := mapDelete st.pendingRequests id },
             some (if e then .rejected token else .resolved token))
        ∧ mapHas (mapDelete st.pendingRequests id) id = false
        ∧ ∀ e2 : Bool,
            handleResponse
              { st with pendingRequests := mapDelete st.pendingRequests id }
              (some id) e2
            = ({ st with pendingRequests := mapDelete st.pendingRequests id },
               none)) := by
  refine ⟨fun st e => rfl, fun st id e h => ?_, fun st id e token hget => ?_⟩
  · simp [handleResponse, h]
  · have hhas := mapGet_some_mapHas _ _ _ hget
    refine ⟨by simp [handleResponse, hhas, hget], mapHas_mapDelete _ _, fun e2 => ?_⟩
    simp [handleResponse, mapHas_mapDelete]

/-- C10 witness: with one pending request (id 3), a success response
for id 3 resolves it, the table afterwards no longer contains id 3, and
a duplicate response settles nothing. -/
theorem claim10_mcp_settles_at_most_once_witness :
    handleResponse ⟨5, [(3, 77)]⟩ (some 3) false
      = ({ (⟨5, [(3, 77)]⟩ : McpState) with
            pendingRequests := mapDelete [(3, 77)] 3 },
         some (if false then .rejected 77 else .resolved 77))
    ∧ mapHas (mapDelete ([(3, 77)] : PendingTable) 3) 3 = false
    ∧ ∀ e2 : Bool,
        handleResponse
          { (⟨5, [(3, 77)]⟩ : McpState) with
              pendingRequests := mapDelete [(3, 77)] 3 }
          (some 3) e2
        = ({ (⟨5, [(3, 77)]⟩ : McpState) with
              pendingRequests := mapDelete [(3, 77)] 3 }, none) :=
  claim10_mcp_settles_at_most_once.2.2 ⟨5, [(3, 77)]⟩ 3 false 77 (by decide)

/-- C1: whenever the path validator succeeds, the returned normalized
absolute path has the normalized workspace root as a string prefix and
is not string-prefixed by (the normalization of) any directory on the
built-in sensitive-directory list; and every input that is empty,
contains a NUL byte, contains a Windows-reserved metacharacter, or
contains the literal substring dot-dot, is rejected. -/
theorem claim1_path_confinement :
    (∀ (homeDir appData localAppData inputPath workspaceRoot p : String),
      validatePath homeDir appData localAppData inputPath workspaceRoot = .ok p →
      jsStartsWith p (posixNormalize workspaceRoot) = true
      ∧ ∀ d ∈ sensitiveDirectories homeDir appData localAppData,
          jsStartsWith p (posixNormalize d) = false)
    ∧ (∀ (homeDir appData localAppData inputPath workspaceRoot : String),
        (inputPath = ""
          ∨ Char.ofNat 0 ∈ inputPath.data
          ∨ (∃ c ∈ inputPath.data,
              c = '<' ∨ c = '>' ∨ c = '"' ∨ c = '|' ∨ c = '?' ∨ c = '*')
          ∨ jsIncludes inputPath ".." = true) →
        ∀ p, validatePath homeDir appData localAppData inputPath workspaceRoot ≠ .ok p) := by
  constructor
  · intro homeDir appData localAppData inputPath workspaceRoot p h
    unfold validatePath at h
    dsimp only at h
    set absolutePath := (if jsStartsWith (posixNormalize inputPath) "/" = true
        then posixNormalize inputPath
        else posixResolve workspaceRoot (posixNormalize inputPath)) with habs
    split at h
    · cases h
    · split at h
      · cases h
      · split at h
        · cases h
        · rename_i hconf
          split at h
          · cases h
          · rename_i hfind
            injection h with h
            subst h
            refine ⟨not_not.mp hconf, fun d hd => ?_⟩
            rw [List.find?_eq_none] at hfind
            simpa using hfind d hd
  · intro homeDir appData localAppData inputPath workspaceRoot h p heq
    unfold validatePath at heq
    split at heq
    · cases heq
    · split at heq
      · cases heq
      · rename_i hempty hdanger
        rcases h with h | h | h | h
        · exact hempty (by simp [h])
        · refine hdanger ?_
          unfold containsDangerousPathPattern
          simp only [Bool.or_eq_true]
          refine Or.inl (Or.inl ?_)
          rw [List.any_eq_true]
          exact ⟨_, h, by simp⟩
        · refine hdanger ?_
          unfold containsDangerousPathPattern
          simp only [Bool.or_eq_true]
          obtain ⟨c, hc, hcs⟩ := h
          refine Or.inl (Or.inr ?_)
          rw [List.any_eq_true]
          refine ⟨c, hc, ?_⟩
          rcases hcs with rfl | rfl | rfl | rfl | rfl | rfl <;> decide
        · refine hdanger ?_
          unfold containsDangerousPathPattern
          simp only [Bool.or_eq_true]
          exact Or.inr h

/-- C1 witness: a relative path inside the workspace validates to an
absolute path carrying the workspace prefix and clear of every
sensitive directory, and a dot-dot input is rejected. -/
theorem claim1_path_confinement_witness :
    (jsStartsWith "/ws/docs/a.txt" (posixNormalize "/ws") = true
      ∧ ∀ d ∈ sensitiveDirectories "/home/u" "" "",
          jsStartsWith "/ws/docs/a.txt" (posixNormalize d) = false)
    ∧ validatePath "/home/u" "" "" "../x" "/ws" ≠ .ok "/x" :=
  ⟨claim1_path_confinement.1 "/home/u" "" "" "docs/a.txt" "/ws" "/ws/docs/a.txt"
      (by decide),
   claim1_path_confinement.2 "/home/u" "" "" "../x" "/ws"
      (Or.inr (Or.inr (Or.inr (by decide)))) "/x"⟩

/-- String concatenation concatenates the underlying characters. -/
theorem jsAppend_data (s t : String) : (s ++ t).data = s.data ++ t.data := by
  cases s; cases t; rfl

/-- Letter-run counting splits over concatenation: the suffix is counted
from the boundary state (whether the prefix ends in a letter). -/
theorem countWordsAux_append (l m : List Char) (b : Bool) :
    countWordsAux b (l ++ m)
      = countWordsAux b l
        + countWordsAux (l.foldl (fun _ c => isAsciiLetterChar c) b) m := by
  induction l generalizing b with
  | nil => simp [countWordsAux]
  | cons c cs ih =>
    simp only [List.cons_append, countWordsAux, List.foldl_cons, List.append_eq]
    by_cases hc : isAsciiLetterChar c = true
    · rw [if_pos hc, if_pos hc, hc, ih true]
      omega
    · rw [if_neg hc, if_neg hc]
      rw [Bool.not_eq_true] at hc
      rw [hc, ih false]

/-- The CJK and ASCII-letter character classes are disjoint, so their
counts never exceed the length. -/
theorem cjk_letters_le_length (l : List Char) :
    l.countP (fun c => isCjkChar c) + l.countP (fun c => isAsciiLetterChar c)
      ≤ l.length := by
  induction l with
  | nil => simp
  | cons c cs ih =>
    simp only [List.countP_cons, List.length_cons]
    have hdisj : ¬ (isCjkChar c = true ∧ isAsciiLetterChar c = true) := by
      rintro ⟨h1, h2⟩
      unfold isCjkChar at h1
      unfold isAsciiLetterChar at h2
      simp only [Bool.or_eq_true, Bool.and_eq_true, decide_eq_true_eq] at h1 h2
      omega
    by_cases h1 : isCjkChar c = true <;> by_cases h2 : isAsciiLetterChar c = true <;>
      simp [h1, h2] at hdisj ⊢ <;> omega

/-- Appending characters to a message body never decreases its token
contribution: appended CJK characters add 15 tenths, new letter runs 13,
and other characters 5 — all nonnegative — and a letter appended to an
existing run adds nothing but removes nothing. -/
theorem messageTokensTenths_le_append (s t : String) :
    messageTokensTenths s ≤ messageTokensTenths (s ++ t) := by
  unfold messageTokensTenths countWords
  dsimp only
  rw [jsAppend_data, List.countP_append, List.countP_append, List.length_append,
    countWordsAux_append]
  have h1 := cjk_letters_le_length s.data
  have h2 := cjk_letters_le_length t.data
  omega

/-- C9: the token estimate is monotone — appending characters to the end
of any message's content, or appending an additional message to the
transcript, never decreases `estimateTokens`. -/
theorem claim9_token_estimate_monotone :
    (∀ (ms1 ms2 : List ChatMessage) (role s t : String),
      estimateTokens (ms1 ++ ⟨role, s⟩ :: ms2)
        ≤ estimateTokens (ms1 ++ ⟨role, s ++ t⟩ :: ms2))
    ∧ (∀ (ms : List ChatMessage) (m : ChatMessage),
        estimateTokens ms ≤ estimateTokens (ms ++ [m])) := by
  constructor
  · intro ms1 ms2 role s t
    unfold estimateTokens
    apply Nat.div_le_div_right
    simp only [List.map_append, List.map_cons, List.sum_append, List.sum_cons]
    have hm := messageTokensTenths_le_append s t
    omega
  · intro ms m
    unfold estimateTokens
    apply Nat.div_le_div_right
    simp only [List.map_append, List.map_cons, List.map_nil, List.sum_append,
      List.sum_cons, List.sum_nil]
    omega

/-- Splitting on a separator that does not occur yields the whole
string as the only part. -/
theorem jsSplitChar_single (s : String) (sep : Char) (h : sep ∉ s.data) :
    jsSplitChar s sep = [s] := by
  unfold jsSplitChar
  rw [List.splitOn, List.splitOnP_eq_single]
  · simp
  · intro x hx
    simp only [beq_iff_eq]
    intro he
    exact h (he ▸ hx)

/-- Reading indices `0..k-1` with a default is an in-bounds prefix read
when `k` does not exceed the length. -/
theorem range_map_getD_eq_take {α : Type} (l : List α) (d : α) (k : Nat)
    (h : k ≤ l.length) :
    (List.range k).map (fun j => l.getD j d) = l.take k := by
  induction k with
  | zero => simp
  | succ n ih =>
    rw [List.range_succ, List.map_append, ih (by omega)]
    simp only [List.map_cons, List.map_nil]
    rw [List.take_succ]
    have hn : n < l.length := by omega
    rw [List.getD_eq_getElem l d hn]
    simp [List.getElem?_eq_getElem hn]

/-- C7 (amended): applying an empty diff — a single line containing the
`@@` marker and no body lines — returns the original content unchanged,
PROVIDED that, when the line parses as a hunk header with 1-based
original start `S`, `S - 1` does not exceed the number of original
lines; a start beyond end of file instead appends empty lines (the
counterexample below). -/
theorem claim7_empty_diff_identity :
    ∀ (original line : String),
      jsIncludes line "@@" = true →
      '\n' ∉ line.data →
      (∀ s : Nat, jsStartsWith line "@@" = true →
        findHunkHeader line.data = some s →
        (s : Int) - 1 ≤ ((jsSplitChar original '\n').length : Int)) →
      applyUnifiedDiff original line = .ok original := by
  intro original line hinc hnl hbound
  unfold applyUnifiedDiff
  rw [if_neg (by simp [hinc])]
  rw [jsSplitChar_single line '\n' hnl]
  simp only [List.foldl_cons, List.foldl_nil]
  unfold diffLineStep
  by_cases hat : jsStartsWith line "@@" = true
  · rw [if_pos hat]
    cases hfh : findHunkHeader line.data with
    | none =>
      simp only [hfh]
      simp [jsJoin_jsSplit]
    | some s =>
      have hb := hbound s hat hfh
      simp only [hfh]
      have hk : ((s : Int) - 1 - ((0 : Nat) : Int)).toNat
          ≤ (jsSplitChar original '\n').length := by omega
      simp only [Nat.zero_add]
      rw [range_map_getD_eq_take _ "" _ hk]
      simp only [List.nil_append]
      rw [List.take_append_drop]
      exact congrArg Except.ok (jsJoin_jsSplit original '\n')
  · rw [if_neg hat]
    simp [jsJoin_jsSplit]

/-- C7 counterexample: the empty diff `@@ -3,0 +3,0 @@` (one hunk
header, no body lines) applied to the one-line file `a` yields `a`
followed by a newline — not the original content: the loop emits the
out-of-bounds original lines before the hunk start as JavaScript
`undefined`, which join as an empty line. -/
theorem claim7_empty_diff_beyond_eof_changes_content :
    applyUnifiedDiff "a" "@@ -3,0 +3,0 @@" = .ok "a\n" ∧ "a\n" ≠ "a" := by
  decide

/-- C7 witness: the canonical empty diff whose hunk start is in bounds
leaves the file unchanged. -/
theorem claim7_empty_diff_identity_witness :
    applyUnifiedDiff "hello" "@@ -1,0 +1,0 @@" = .ok "hello" :=
  claim7_empty_diff_identity "hello" "@@ -1,0 +1,0 @@" (by decide) (by decide)
    (fun s _ h2 => by
      rw [show findHunkHeader ("@@ -1,0 +1,0 @@" : String).data = some 1 from by decide]
        at h2
      injection h2 with h2
      subst h2
      decide)
